import Mathlib

/-!
Verification of the custom-domain verification core of the Lunacirca repository.

The TypeScript sources under `src/` are shallowly embedded below:
* `src/lib/custom-domains.ts` — hostname normalizer, apex check, record store mapping;
* `src/lib/dns-check.ts` — DNS answer matching (CNAME / TXT);
* `src/lib/cloudflare.ts` — provider client error shapes;
* the `verify`, `refresh`, `create` and `resolve` route handlers, plus the
  routing middleware's custom-domain lookup.

JavaScript strings are modelled as `List Char` pipelines wrapped in `String`;
machine-independent behaviour (regexes, `trim`, `toLowerCase`, `split`) is
translated operation by operation.  `toLowerCase`/`trim` are modelled on their
ASCII behaviour, which is exhaustive for the hostname character class the code
admits.  Network calls (DNS-over-HTTPS, the Cloudflare API) are modelled by
passing their observable results (answer lists, `Except` results) as inputs.
-/

namespace Lunacirca

/-! ### Character primitives -/

/-- ASCII lower-casing, the fragment of JS `toLowerCase` relevant to hostnames. -/
def toLowerCh (c : Char) : Char :=
  if 65 ≤ c.toNat ∧ c.toNat ≤ 90 then Char.ofNat (c.toNat + 32) else c

/-- ASCII whitespace, the fragment of JS `trim`'s character class relevant here. -/
def isWsCh (c : Char) : Bool :=
  c.toNat == 32 || (9 ≤ c.toNat && c.toNat ≤ 13)

/-- The character class `[a-z0-9.-]` of `normalizeHostname`'s validity regex. -/
def isHostChar (c : Char) : Bool :=
  (97 ≤ c.toNat && c.toNat ≤ 122) || (48 ≤ c.toNat && c.toNat ≤ 57) || c == '.' || c == '-'

/-- The scheme character class `[a-z0-9.+-]` of the protocol-stripping regex. -/
def isSchemeChar (c : Char) : Bool :=
  (97 ≤ c.toNat && c.toNat ≤ 122) || (48 ≤ c.toNat && c.toNat ≤ 57)
    || c == '.' || c == '+' || c == '-'

/-- The label character class `[a-z0-9-]` of the per-label regex. -/
def isLabelChar (c : Char) : Bool :=
  (97 ≤ c.toNat && c.toNat ≤ 122) || (48 ≤ c.toNat && c.toNat ≤ 57) || c == '-'

/-! ### List-of-characters primitives (JS string operations) -/

/-- JS `String.prototype.trim` (ASCII fragment). -/
def trimList (l : List Char) : List Char :=
  ((l.dropWhile isWsCh).reverse.dropWhile isWsCh).reverse

/-- JS `.replace(/\.+$/, '')`: drop all trailing dots. -/
def dropTrailingDots (l : List Char) : List Char :=
  (l.reverse.dropWhile (fun c => c == '.')).reverse

/-- JS `.replace(/^[a-z0-9.+-]+:\/\//i, '')` on an already lower-cased string.
Since `:` is not a scheme character, the regex matches exactly when the maximal
scheme-character run is non-empty and is immediately followed by `://`. -/
def stripProto (l : List Char) : List Char :=
  if l.takeWhile isSchemeChar ≠ [] ∧
      (l.drop (l.takeWhile isSchemeChar).length).take 3 = [':', '/', '/']
  then (l.drop (l.takeWhile isSchemeChar).length).drop 3
  else l

/-- The host-extraction pipeline of `normalizeHostname`: strip scheme, then
`split('/')[0]`, then `split(':')[0]`, then trailing dots. -/
def extractHost (t : List Char) : List Char :=
  dropTrailingDots ((((stripProto t).takeWhile (fun c => c != '/')).takeWhile (fun c => c != ':')))

/-- JS `cleaned.includes('..')`. -/
def hasDoubleDot : List Char → Bool
  | [] => false
  | [_] => false
  | a :: b :: rest => (a == '.' && b == '.') || hasDoubleDot (b :: rest)

/-- JS `String.prototype.split('.')` (keeps empty segments, `''` splits to `['']`). -/
def splitOnDot : List Char → List (List Char)
  | [] => [[]]
  | c :: rest =>
    if c == '.' then [] :: splitOnDot rest
    else
      match splitOnDot rest with
      | [] => [[c]]
      | h :: t => (c :: h) :: t

/-- The per-label rejection conditions of `normalizeHostname`
(empty, too long, bad character, leading/trailing hyphen). -/
def badLabel (label : List Char) : Bool :=
  label.isEmpty || 63 < label.length || !(label.all isLabelChar)
    || label.head? == some '-' || label.getLast? == some '-'

/-- All validity checks `normalizeHostname` applies to the extracted host.
The early-return chain of the source is folded into one conjunction
(the checks are pure, so the result is the same). -/
def hostOk (cleaned : List Char) : Bool :=
  !cleaned.isEmpty
    && cleaned.length ≤ 253
    && !cleaned.any (fun c => !(isHostChar c))
    && !hasDoubleDot cleaned
    && !(cleaned.head? == some '-' || cleaned.getLast? == some '-')
    && 2 ≤ (splitOnDot cleaned).length
    && !(splitOnDot cleaned).any badLabel

/-- Validity gate: `some cleaned` when every check passes, else `null`. -/
def checkHost (cleaned : List Char) : Option (List Char) :=
  if hostOk cleaned then some cleaned else none

/-- `normalizeHostname` of `src/lib/custom-domains.ts` on character lists:
reject empty input, trim + lower-case, reject empty, extract the host part,
validate it. -/
def normList (raw : List Char) : Option (List Char) :=
  if raw = [] then none
  else if ((trimList raw).map toLowerCh) = [] then none
  else checkHost (extractHost ((trimList raw).map toLowerCh))

/-- `normalizeHostname(raw)` (the `String` wrapper). -/
def normalizeHostname (raw : String) : Option String :=
  (normList raw.data).map String.mk

/-- `isApexHostname` of `src/lib/custom-domains.ts`:
`hostname.split('.').filter(Boolean).length <= 2`. -/
def isApexHostname (hostname : String) : Bool :=
  ((splitOnDot hostname.data).filter (fun l => !l.isEmpty)).length ≤ 2

/-- JS `trim` on `String` (ASCII fragment), used for `id.trim()`, `txtValue.trim()`, … -/
def strTrim (s : String) : String :=
  String.mk (trimList s.data)

/-- JS `toLowerCase` on `String` (ASCII fragment). -/
def strToLower (s : String) : String :=
  String.mk (s.data.map toLowerCh)

/-! ### DNS verifier (`src/lib/dns-check.ts`)

`queryDns` is network I/O; its observable result (the `Answer` array, with a
resolver failure swallowed into `[]` by the `.catch(() => [])` at the call
sites) is passed in as an input list. -/

/-- A DNS-over-HTTPS JSON answer entry. -/
structure DnsAnswer where
  name : Option String
  type : Option Nat
  data : Option String
deriving DecidableEq

/-- `normalizeFqdn` of `src/lib/dns-check.ts` on a present string:
trim, lower-case, strip trailing dots. -/
def normalizeFqdnStr (s : String) : String :=
  if s = "" then ""
  else String.mk (dropTrailingDots ((trimList s.data).map toLowerCh))

/-- `normalizeFqdn` on a nullable string (`value ? … : ''`). -/
def normalizeFqdnOpt : Option String → String
  | none => ""
  | some s => normalizeFqdnStr s

/-- JS `data.replace(/^"|"$/g, '')`: remove one leading and one trailing quote. -/
def stripOuterQuotes (l : List Char) : List Char :=
  let l1 := if l.head? = some '"' then l.drop 1 else l
  if l1.getLast? = some '"' then l1.dropLast else l1

/-- JS `.replace(/""/g, '"')`: collapse doubled quote characters left to right. -/
def collapseDQ : List Char → List Char
  | [] => []
  | '"' :: '"' :: rest => '"' :: collapseDQ rest
  | c :: rest => c :: collapseDQ rest

/-- The TXT matching predicate of `checkDnsRecords`: strip a surrounding quote
pair and collapse doubled quotes in the answer, compare exactly with the
trimmed expected value. -/
def txtAnswerMatches (data expected : String) : Bool :=
  collapseDQ (stripOuterQuotes data.data) == (strTrim expected).data

/-- The CNAME matching predicate of `checkDnsRecords`. -/
def cnameAnswerMatches (data : Option String) (target : String) : Bool :=
  normalizeFqdnOpt data == normalizeFqdnStr target

/-- One leg of the `DnsCheckResult` shape. -/
structure DnsRecordCheck where
  ok : Bool
  found : Option String
deriving DecidableEq

/-- The `DnsCheckResult` shape returned by `checkDnsRecords`. -/
structure DnsCheckResult where
  cname : DnsRecordCheck
  txt : DnsRecordCheck
deriving DecidableEq

/-- `checkDnsRecords` of `src/lib/dns-check.ts`, with the two DoH answer
lists passed in (the queried names `fqdn`/`txtName` only select which answers
arrive and so live outside the model). -/
def checkDnsRecords (answersCname answersTxt : List DnsAnswer)
    (target txtValue : String) : DnsCheckResult :=
  let cnameMatch := answersCname.find? (fun a => cnameAnswerMatches a.data target)
  let txtMatch := answersTxt.find? (fun a => txtAnswerMatches (a.data.getD "") txtValue)
  { cname := { ok := cnameMatch.isSome, found := cnameMatch.bind (fun a => a.data) }
    txt := { ok := txtMatch.isSome, found := txtMatch.bind (fun a => a.data) } }

/-! ### Edge provider client (`src/lib/cloudflare.ts`) -/

/-- The `ssl` sub-object of a Cloudflare custom-hostname resource. -/
structure CloudflareSsl where
  status : Option String
  verification_errors : Option (List String)
deriving DecidableEq

/-- The `CloudflareHostname` resource shape. -/
structure CloudflareHostname where
  id : String
  hostname : String
  status : String
  verification_errors : Option (List String)
  ssl : Option CloudflareSsl
deriving DecidableEq

/-- The failure modes of `createCustomHostname` / `getCustomHostname`:
a non-2xx HTTP response (distinguished by its thrown message), a success
envelope with `success: false`, or missing credentials. -/
inductive CfError where
  | httpCreate (status : Nat) (body : String)
  | httpRead (status : Nat) (body : String)
  | envelope (message : String)
  | configMissing
deriving DecidableEq

/-- The message carried by each thrown error, as built in `cloudflare.ts`. -/
def cfErrorMessage : CfError → String
  | .httpCreate status body =>
      "Failed to create Cloudflare hostname (" ++ (toString status ++ ("): " ++ body))
  | .httpRead status body =>
      "Failed to read Cloudflare hostname (" ++ (toString status ++ ("): " ++ body))
  | .envelope message => message
  | .configMissing =>
      "Cloudflare API credentials are missing (CLOUDFLARE_ACCOUNT_ID / CLOUDFLARE_API_TOKEN)"

/-- JS `String.prototype.startsWith`, used by the route error mappers. -/
def startsWithStr (s p : String) : Bool :=
  p.data.isPrefixOf s.data

/-! ### Domain record store (`src/lib/custom-domains.ts`) -/

/-- The `CustomDomainStatus` union. -/
inductive Status where
  | pending_dns
  | verifying
  | active
  | failed
deriving DecidableEq

/-- The `CustomDomainRecord` entity (application view). -/
structure CustomDomainRecord where
  id : String
  ownerId : String
  distributionId : Option String
  hostname : String
  status : Status
  verificationMethod : String
  verificationToken : String
  cfHostnameId : Option String
  dnsTarget : String
  txtName : Option String
  txtValue : Option String
  lastError : Option String
  lastCheckedAt : Option Nat
  createdAt : Nat
  updatedAt : Nat
deriving DecidableEq

/-- A row of the `custom_domains` table.  Per the migration, `distribution_id`
is `TEXT NOT NULL`, so it is a plain `String` (the empty string is the
"no distribution" sentinel); nullable columns are `Option`. -/
structure DomainRow where
  id : String
  owner_id : String
  distribution_id : String
  hostname : String
  status : String
  verification_method : String
  verification_token : String
  cf_hostname_id : Option String
  dns_target : String
  txt_name : Option String
  txt_value : Option String
  last_error : Option String
  last_checked_at : Option Nat
  created_at : Nat
  updated_at : Nat
deriving DecidableEq

/-- The unchecked TS cast `toStringOrNull(row.status) as CustomDomainStatus`
modelled as a total parse with the source's `?? 'pending_dns'` fallback. -/
def statusFromString (s : String) : Status :=
  if s = "verifying" then .verifying
  else if s = "active" then .active
  else if s = "failed" then .failed
  else .pending_dns

/-- `mapRow` of `src/lib/custom-domains.ts`.  `distributionId` is null unless
the stored string is non-empty and has a non-empty trim
(`value && value.trim() ? value : null`); `lastCheckedAt` is null when the
stored value is absent or `0` (JS truthiness of `row.last_checked_at`). -/
def mapRow (row : DomainRow) : CustomDomainRecord :=
  { id := row.id
    ownerId := row.owner_id
    distributionId :=
      if row.distribution_id ≠ "" ∧ strTrim row.distribution_id ≠ ""
      then some row.distribution_id else none
    hostname := row.hostname
    status := statusFromString row.status
    verificationMethod := row.verification_method
    verificationToken := row.verification_token
    cfHostnameId := row.cf_hostname_id
    dnsTarget := row.dns_target
    txtName := row.txt_name
    txtValue := row.txt_value
    lastError := row.last_error
    lastCheckedAt := row.last_checked_at.bind (fun n => if n = 0 then none else some n)
    createdAt := row.created_at
    updatedAt := row.updated_at }

/-- The `CreateCustomDomainInput` shape of `createCustomDomain`. -/
structure CreateCustomDomainInput where
  ownerId : String
  distributionId : Option String
  hostname : String
  dnsTarget : String
  verificationMethod : String
  verificationToken : String
  txtName : String
  txtValue : String
deriving DecidableEq

/-- The row `createCustomDomain` inserts: `distribution_id` is
`input.distributionId ?? ''`, status starts at `'pending_dns'`,
`cf_hostname_id` / `last_error` / `last_checked_at` are left NULL. -/
def insertRow (genId : String) (input : CreateCustomDomainInput) (now : Nat) : DomainRow :=
  { id := genId
    owner_id := input.ownerId
    distribution_id := input.distributionId.getD ""
    hostname := input.hostname
    status := "pending_dns"
    verification_method := input.verificationMethod
    verification_token := input.verificationToken
    cf_hostname_id := none
    dns_target := input.dnsTarget
    txt_name := some input.txtName
    txt_value := some input.txtValue
    last_error := none
    last_checked_at := none
    created_at := now
    updated_at := now }

/-- The record `createCustomDomain` returns (insert, then read back through
`mapRow`). -/
def createRecord (genId : String) (input : CreateCustomDomainInput) (now : Nat) :
    CustomDomainRecord :=
  mapRow (insertRow genId input now)

/-- Modelled from the spec: `updateCustomDomainRecord` is imported by the
verify and refresh routes from `@/lib/custom-domains` but its definition is
not among the provided sources.  Per spec §4.2, `update(id, partialFields)`
mutates `status`, `lastError`, `lastCheckedAt`, `cfHostnameId` (exactly the
fields the routes pass) and always refreshes `updatedAt`; absent fields are
left unchanged. -/
def updateCustomDomainRecord (d : CustomDomainRecord) (status : Option Status)
    (lastError : Option (Option String)) (lastCheckedAt : Option Nat)
    (cfHostnameId : Option String) (now : Nat) : CustomDomainRecord :=
  { d with
    status := status.getD d.status
    lastError := lastError.getD d.lastError
    lastCheckedAt := match lastCheckedAt with | some n => some n | none => d.lastCheckedAt
    cfHostnameId := match cfHostnameId with | some c => some c | none => d.cfHostnameId
    updatedAt := now }

/-- The `links` table row shape used by the create route's distribution check
and by the `LEFT JOIN links` of the read paths. -/
structure LinkRow where
  id : String
  owner_id : String
  code : String
  title : Option String
deriving DecidableEq

/-- The joined view `CustomDomainWithLink` (record plus `link_code`/`link_title`). -/
structure CustomDomainWithLink where
  record : CustomDomainRecord
  distributionCode : Option String
  distributionTitle : Option String
deriving DecidableEq

/-- The `LEFT JOIN links l ON l.id = cd.distribution_id` of the read paths
(outer-join semantics: a missing link leaves the code/title null). -/
def joinLink (links : List LinkRow) (d : CustomDomainRecord) : CustomDomainWithLink :=
  match d.distributionId with
  | none => ⟨d, none, none⟩
  | some did =>
    match links.find? (fun l => l.id == did) with
    | none => ⟨d, none, none⟩
    | some l => ⟨d, some l.code, l.title⟩

/-- `getCustomDomainByHostname`: lower-cases and trims the argument, then the
unique-index lookup `WHERE cd.hostname=?`. -/
def lookupByHostname (domains : List CustomDomainRecord) (hostname : String) :
    Option CustomDomainRecord :=
  domains.find? (fun d => d.hostname == strToLower (strTrim hostname))

/-! ### Route helpers (`route-helpers.ts`, provided as an unnamed source part) -/

/-- Modelled from the spec: `getCustomDomainForOwner` is called by
`resolveDomainContext` but its definition is not among the provided sources.
Per spec §4.2 the lookup must reject any access where
`record.ownerId != callerId` exactly like a missing id (`NOT_FOUND`-equivalent,
no existence leakage), i.e. it filters by id and owner together. -/
def getCustomDomainForOwner (domains : List CustomDomainRecord) (domainId uid : String) :
    Option CustomDomainRecord :=
  domains.find? (fun r => r.id == domainId && r.ownerId == uid)

/-- The failures `resolveDomainContext` throws. -/
inductive CtxError where
  | unauthenticated
  | domainIdRequired
  | domainNotFound
deriving DecidableEq

/-- `resolveDomainContext`: require an authenticated uid (cookie parsing is
modelled by passing the parsed `Option String`), a non-empty trimmed id, and
an owner-scoped lookup hit. -/
def resolveDomainContext (uidOpt : Option String)
    (domains : List CustomDomainRecord) (domainId : String) :
    Except CtxError CustomDomainRecord :=
  match uidOpt with
  | none => .error .unauthenticated
  | some uid =>
    if strTrim domainId = "" then .error .domainIdRequired
    else
      match getCustomDomainForOwner domains (strTrim domainId) uid with
      | none => .error .domainNotFound
      | some d => .ok d

/-! ### The verify route (`api/member/custom-domains/[id]/verify/route.ts`) -/

/-- The observable outcomes of the verify handler. -/
inductive VerifyOutcome where
  | unauthenticated
  | domainIdRequired
  | domainNotFound
  | dnsNotReady (dns : DnsCheckResult) (domain : CustomDomainRecord)
  | cloudflareError (message : String)
  | internalError (message : String)
  | okVerified (domain : CustomDomainRecord) (dns : DnsCheckResult) (cf : CloudflareHostname)
deriving DecidableEq

/-- The HTTP status each verify outcome is serialized with. -/
def verifyHttpStatus : VerifyOutcome → Nat
  | .unauthenticated => 401
  | .domainIdRequired => 400
  | .domainNotFound => 404
  | .dnsNotReady _ _ => 409
  | .cloudflareError _ => 502
  | .internalError _ => 500
  | .okVerified _ _ _ => 200

/-- The core of the verify handler after context resolution, acting on one
record.  DNS answers and the provider-create result are the observable inputs
of the two network calls; `now` is `Math.floor(Date.now() / 1000)`. -/
def verifyStep (d : CustomDomainRecord) (answersCname answersTxt : List DnsAnswer)
    (cfRes : Except CfError CloudflareHostname) (now : Nat) :
    VerifyOutcome × CustomDomainRecord :=
  let txtValue := d.txtValue.getD d.verificationToken
  let dns := checkDnsRecords answersCname answersTxt d.dnsTarget txtValue
  if !dns.cname.ok || !dns.txt.ok then
    let message := if !dns.cname.ok then "CNAME record not detected yet."
                   else "TXT record not detected yet."
    let updated := updateCustomDomainRecord d (some .pending_dns) (some (some message))
      (some now) none now
    (.dnsNotReady dns updated, updated)
  else
    match cfRes with
    | .error e =>
      if startsWithStr (cfErrorMessage e) "Failed to create Cloudflare" then
        (.cloudflareError (cfErrorMessage e), d)
      else
        (.internalError (cfErrorMessage e), d)
    | .ok cf =>
      let updated := updateCustomDomainRecord d (some .verifying) (some none)
        (some now) (some cf.id) now
      (.okVerified updated dns cf, updated)

/-- Mapping of a context failure to the verify handler's error response. -/
def ctxToVerifyOutcome : CtxError → VerifyOutcome
  | .unauthenticated => .unauthenticated
  | .domainIdRequired => .domainIdRequired
  | .domainNotFound => .domainNotFound

/-- Replace the record with the given id in the store (the single-row
`UPDATE … WHERE id=?`). -/
def replaceDomain (domains : List CustomDomainRecord) (id : String)
    (d' : CustomDomainRecord) : List CustomDomainRecord :=
  domains.map (fun r => if r.id == id then d' else r)

/-- The whole verify handler: context resolution, then `verifyStep`; a context
failure is returned before any persistence or network call. -/
def verifyRoute (uidOpt : Option String) (domains : List CustomDomainRecord)
    (domainId : String) (answersCname answersTxt : List DnsAnswer)
    (cfRes : Except CfError CloudflareHostname) (now : Nat) :
    VerifyOutcome × List CustomDomainRecord :=
  match resolveDomainContext uidOpt domains domainId with
  | .error e => (ctxToVerifyOutcome e, domains)
  | .ok d =>
    let (out, d') := verifyStep d answersCname answersTxt cfRes now
    (out, replaceDomain domains d.id d')

/-! ### The refresh route (the second handler in
`api/custom-domains/resolve/route.ts`) -/

/-- The observable outcomes of the refresh handler. -/
inductive RefreshOutcome where
  | unauthenticated
  | domainIdRequired
  | domainNotFound
  | cloudflareHostnameMissing
  | cloudflareError (message : String)
  | internalError (message : String)
  | okRefreshed (domain : CustomDomainRecord) (cf : CloudflareHostname)
deriving DecidableEq

/-- The HTTP status each refresh outcome is serialized with. -/
def refreshHttpStatus : RefreshOutcome → Nat
  | .unauthenticated => 401
  | .domainIdRequired => 400
  | .domainNotFound => 404
  | .cloudflareHostnameMissing => 400
  | .cloudflareError _ => 502
  | .internalError _ => 500
  | .okRefreshed _ _ => 200

/-- `[...(cf.verification_errors ?? []), ...(cf.ssl?.verification_errors ?? [])]`. -/
def sslVerificationErrors (cf : CloudflareHostname) : List String :=
  match cf.ssl with
  | some s => s.verification_errors.getD []
  | none => []

/-- The combined error list of the refresh handler, after `.filter(Boolean)`
(which drops empty strings). -/
def combinedVerificationErrors (cf : CloudflareHostname) : List String :=
  ((cf.verification_errors.getD []) ++ sslVerificationErrors cf).filter (fun e => e != "")

/-- `cf.ssl?.status === 'active'`. -/
def sslStatusActive (cf : CloudflareHostname) : Bool :=
  (cf.ssl.bind (fun s => s.status)) == some "active"

/-- The status / lastError decision chain of the refresh handler. -/
def refreshDecision (cf : CloudflareHostname) : Status × Option String :=
  let errs := combinedVerificationErrors cf
  if errs ≠ [] then
    (.pending_dns, some (String.intercalate "; " errs))
  else if cf.status = "active" ∨ sslStatusActive cf = true then
    (.active, none)
  else if cf.status = "pending_deletion" then
    (.failed, some "Cloudflare marked this hostname for deletion.")
  else
    (.verifying, none)

/-- The core of the refresh handler after context resolution, acting on one
record: guard on `cfHostnameId`, read the provider, decide, persist.  The
HTTPS liveness probe performed when the result is `active` is auxiliary,
non-persisted output and is not modelled. -/
def refreshStep (d : CustomDomainRecord) (cfRes : Except CfError CloudflareHostname)
    (now : Nat) : RefreshOutcome × CustomDomainRecord :=
  match d.cfHostnameId with
  | none => (.cloudflareHostnameMissing, d)
  | some _ =>
    match cfRes with
    | .error e =>
      if startsWithStr (cfErrorMessage e) "Failed to read Cloudflare" then
        (.cloudflareError (cfErrorMessage e), d)
      else
        (.internalError (cfErrorMessage e), d)
    | .ok cf =>
      let dec := refreshDecision cf
      let updated := updateCustomDomainRecord d (some dec.1) (some dec.2) (some now) none now
      (.okRefreshed updated cf, updated)

/-- Mapping of a context failure to the refresh handler's error response. -/
def ctxToRefreshOutcome : CtxError → RefreshOutcome
  | .unauthenticated => .unauthenticated
  | .domainIdRequired => .domainIdRequired
  | .domainNotFound => .domainNotFound

/-- The whole refresh handler. -/
def refreshRoute (uidOpt : Option String) (domains : List CustomDomainRecord)
    (domainId : String) (cfRes : Except CfError CloudflareHostname) (now : Nat) :
    RefreshOutcome × List CustomDomainRecord :=
  match resolveDomainContext uidOpt domains domainId with
  | .error e => (ctxToRefreshOutcome e, domains)
  | .ok d =>
    let (out, d') := refreshStep d cfRes now
    (out, replaceDomain domains d.id d')

/-! ### The create route (member custom-domains POST, provided as an unnamed
source part) -/

/-- The observable outcomes of the create handler. -/
inductive CreateOutcome where
  | unauthenticated
  | invalidPayload
  | invalidHostname
  | wildcardNotAllowed
  | apexNotAllowed
  | hostnameExists
  | distributionNotFound
  | forbiddenDistribution
  | createFailed
  | created (domain : CustomDomainRecord)
deriving DecidableEq

/-- The HTTP status each create outcome is serialized with. -/
def createHttpStatus : CreateOutcome → Nat
  | .unauthenticated => 401
  | .invalidPayload => 400
  | .invalidHostname => 400
  | .wildcardNotAllowed => 400
  | .apexNotAllowed => 400
  | .hostnameExists => 409
  | .distributionNotFound => 404
  | .forbiddenDistribution => 403
  | .createFailed => 500
  | .created _ => 200

/-- The create handler.  `genId`/`genToken` stand for the `crypto.randomUUID()`
values, `dnsTarget` for the resolved `CUSTOM_DOMAIN_EDGE_TARGET`-or-default. -/
def createDomainRoute (uidOpt : Option String) (payloadHostname : Option String)
    (payloadDistributionId : Option String) (domains : List CustomDomainRecord)
    (links : List LinkRow) (genId genToken dnsTarget : String) (now : Nat) :
    CreateOutcome × List CustomDomainRecord :=
  match uidOpt with
  | none => (.unauthenticated, domains)
  | some uid =>
    match normalizeHostname (payloadHostname.getD "") with
    | none => (.invalidHostname, domains)
    | some nh =>
      if nh.data.contains '*' then (.wildcardNotAllowed, domains)
      else if isApexHostname nh then (.apexNotAllowed, domains)
      else if (lookupByHostname domains nh).isSome then (.hostnameExists, domains)
      else
        let requested := strTrim (payloadDistributionId.getD "")
        let distCheck : Except CreateOutcome (Option String) :=
          if requested = "" then .ok none
          else
            match links.find? (fun l => l.id == requested) with
            | none => .error .distributionNotFound
            | some l =>
              if strTrim l.owner_id ≠ uid then .error .forbiddenDistribution
              else .ok (some l.id)
        match distCheck with
        | .error e => (e, domains)
        | .ok distributionId =>
          let input : CreateCustomDomainInput :=
            { ownerId := uid
              distributionId := distributionId
              hostname := nh
              dnsTarget := dnsTarget
              verificationMethod := "txt"
              verificationToken := genToken
              txtName := "_cf-custom-hostname." ++ nh
              txtValue := genToken }
          let r := createRecord genId input now
          (.created r, domains ++ [r])

/-! ### The resolve route (`api/custom-domains/resolve` GET) and the routing
middleware's custom-domain lookup -/

/-- The observable outcomes of the resolve handler.  `ok` carries the JSON
body fields `hostname`, `distributionId`, `linkCode`, `status`. -/
inductive ResolveOutcome where
  | invalidHostname
  | notFound
  | ok (hostname : String) (distributionId : Option String)
      (linkCode : Option String) (status : Status)
deriving DecidableEq

/-- The resolve GET handler: normalize the `hostname` query parameter, look the
record up by hostname (no status filter), return its link code and status. -/
def resolveGet (domains : List CustomDomainRecord) (links : List LinkRow)
    (hostnameParam : String) : ResolveOutcome :=
  match normalizeHostname hostnameParam with
  | none => .invalidHostname
  | some nh =>
    match lookupByHostname domains nh with
    | none => .notFound
    | some d => .ok d.hostname d.distributionId (joinLink links d).distributionCode d.status

/-- What the middleware's `lookupCustomDomain` extracts from the resolve
response: `null` on a non-2xx response, else `data.ok && data.linkCode`
(a JS-truthy, i.e. non-empty, string). -/
def lookupCode : ResolveOutcome → Option String
  | .ok _ _ (some code) _ => if code = "" then none else some code
  | _ => none

/-- The middleware's rewrite decision for a non-bypassed path on a cache miss:
skip empty/default hosts, resolve the host, and rewrite `/` to `/d/<code>`
when a link code came back.  (`host` is the already lower-cased `Host`
header; the in-memory TTL cache only short-circuits this same computation.) -/
def middlewareRewrite (defaultHosts : List String) (domains : List CustomDomainRecord)
    (links : List LinkRow) (host pathname : String) : Option String :=
  if host = "" ∨ defaultHosts.contains host then none
  else
    match lookupCode (resolveGet domains links host) with
    | none => none
    | some code =>
      if pathname = "/" ∨ pathname = "" then some ("/d/" ++ code) else none

/-! ### Traces of store operations (for the reachable-state invariant) -/

/-- One user-triggered operation on an existing record, with the observable
results of its network calls. -/
inductive DomainOp where
  | verify (answersCname answersTxt : List DnsAnswer)
      (cfRes : Except CfError CloudflareHostname) (now : Nat)
  | refresh (cfRes : Except CfError CloudflareHostname) (now : Nat)

/-- The persisted record after one operation. -/
def applyOp (d : CustomDomainRecord) : DomainOp → CustomDomainRecord
  | .verify ansC ansT cfRes now => (verifyStep d ansC ansT cfRes now).2
  | .refresh cfRes now => (refreshStep d cfRes now).2

/-- The persisted record after a sequence of operations. -/
def runOps (d : CustomDomainRecord) (ops : List DomainOp) : CustomDomainRecord :=
  ops.foldl applyOp d

/-- Did this verify's DNS check pass against record `d`? -/
def dnsOkFor (d : CustomDomainRecord) (answersCname answersTxt : List DnsAnswer) : Bool :=
  let dns := checkDnsRecords answersCname answersTxt d.dnsTarget
    (d.txtValue.getD d.verificationToken)
  dns.cname.ok && dns.txt.ok

/-- Is the result of the provider call a success? -/
def cfResOk : Except CfError CloudflareHostname → Bool
  | .ok _ => true
  | .error _ => false

/-- A verify whose DNS check passed (regardless of the provider call). -/
def isValidatedVerify (d : CustomDomainRecord) : DomainOp → Bool
  | .verify ansC ansT _ _ => dnsOkFor d ansC ansT
  | .refresh _ _ => false

/-- A verify whose DNS check passed and whose provider create succeeded. -/
def isCompletedVerify (d : CustomDomainRecord) : DomainOp → Bool
  | .verify ansC ansT cfRes _ => dnsOkFor d ansC ansT && cfResOk cfRes
  | .refresh _ _ => false

/-- Some verify in the trace validated DNS (evaluated against the record
state current at that step). -/
def anyValidatedVerify (d : CustomDomainRecord) : List DomainOp → Bool
  | [] => false
  | op :: rest => isValidatedVerify d op || anyValidatedVerify (applyOp d op) rest

/-- Some verify in the trace validated DNS and completed the provider create. -/
def anyCompletedVerify (d : CustomDomainRecord) : List DomainOp → Bool
  | [] => false
  | op :: rest => isCompletedVerify d op || anyCompletedVerify (applyOp d op) rest

/-! ### Character-level lemmas -/

/-- The four cases of the hostname character class. -/
theorem isHostChar_cases {c : Char} (h : isHostChar c = true) :
    (97 ≤ c.toNat ∧ c.toNat ≤ 122) ∨ (48 ≤ c.toNat ∧ c.toNat ≤ 57) ∨ c = '.' ∨ c = '-' := by
  simp only [isHostChar, Bool.or_eq_true, Bool.and_eq_true, decide_eq_true_eq,
    beq_iff_eq] at h
  tauto

/-- The cases of the whitespace class. -/
theorem isWsCh_cases {c : Char} (h : isWsCh c = true) :
    c.toNat = 32 ∨ (9 ≤ c.toNat ∧ c.toNat ≤ 13) := by
  simp only [isWsCh, Bool.or_eq_true, Bool.and_eq_true, decide_eq_true_eq,
    beq_iff_eq] at h
  tauto

/-- Hostname characters are not whitespace. -/
theorem hostChar_not_ws {c : Char} (h : isHostChar c = true) : isWsCh c = false := by
  rcases isHostChar_cases h with h2 | h2 | h2 | h2
  · cases hw : isWsCh c
    · rfl
    · rcases isWsCh_cases hw with h1 | h1 <;> omega
  · cases hw : isWsCh c
    · rfl
    · rcases isWsCh_cases hw with h1 | h1 <;> omega
  · subst h2; decide
  · subst h2; decide

/-- Hostname characters are fixed by lower-casing. -/
theorem hostChar_toLower {c : Char} (h : isHostChar c = true) : toLowerCh c = c := by
  rcases isHostChar_cases h with h2 | h2 | h2 | h2
  · unfold toLowerCh; rw [if_neg (by omega)]
  · unfold toLowerCh; rw [if_neg (by omega)]
  · subst h2; decide
  · subst h2; decide

/-- Hostname characters are not `:`. -/
theorem hostChar_ne_colon {c : Char} (h : isHostChar c = true) : c ≠ ':' := by
  intro hc; subst hc; exact absurd h (by decide)

/-- Hostname characters pass the `split('/')[0]` predicate. -/
theorem hostChar_bne_slash {c : Char} (h : isHostChar c = true) : (c != '/') = true := by
  simp only [bne_iff_ne, ne_eq]
  intro hc; subst hc; exact absurd h (by decide)

/-- Hostname characters pass the `split(':')[0]` predicate. -/
theorem hostChar_bne_colon {c : Char} (h : isHostChar c = true) : (c != ':') = true := by
  simp only [bne_iff_ne, ne_eq]
  exact hostChar_ne_colon h

/-! ### List-level lemmas -/

/-- `dropWhile` is the identity when no element satisfies the predicate. -/
theorem dropWhile_eq_self_of_all {p : Char → Bool} {l : List Char}
    (h : ∀ c ∈ l, p c = false) : l.dropWhile p = l := by
  cases l with
  | nil => rfl
  | cons a t =>
    rw [List.dropWhile_cons, if_neg (by simp [h a (List.mem_cons_self a t)])]

/-- `takeWhile` is the identity when every element satisfies the predicate. -/
theorem takeWhile_eq_self_of_all {p : Char → Bool} :
    ∀ {l : List Char}, (∀ c ∈ l, p c = true) → l.takeWhile p = l := by
  intro l
  induction l with
  | nil => intro _; rfl
  | cons a t ih =>
    intro h
    rw [List.takeWhile_cons, if_pos (h a (List.mem_cons_self a t)),
      ih (fun c hc => h c (List.mem_cons_of_mem a hc))]

/-- `map` is the identity when the function fixes every element. -/
theorem map_eq_self_of_fixed {f : Char → Char} :
    ∀ {l : List Char}, (∀ c ∈ l, f c = c) → l.map f = l := by
  intro l
  induction l with
  | nil => intro _; rfl
  | cons a t ih =>
    intro h
    simp only [List.map_cons]
    rw [h a (List.mem_cons_self a t), ih (fun c hc => h c (List.mem_cons_of_mem a hc))]

/-- Trimming a whitespace-free list is the identity. -/
theorem trimList_eq_self {l : List Char} (h : ∀ c ∈ l, isWsCh c = false) :
    trimList l = l := by
  unfold trimList
  rw [dropWhile_eq_self_of_all h,
    dropWhile_eq_self_of_all (fun c hc => h c (List.mem_reverse.mp hc))]
  exact List.reverse_reverse l

/-- The head surviving a `dropWhile` fails the predicate. -/
theorem dropWhile_head?_false (p : Char → Bool) :
    ∀ {l : List Char} {c : Char}, (l.dropWhile p).head? = some c → p c = false := by
  intro l
  induction l with
  | nil => intro c h; simp [List.dropWhile] at h
  | cons a t ih =>
    intro c h
    rw [List.dropWhile_cons] at h
    by_cases hp : p a
    · rw [if_pos hp] at h; exact ih h
    · rw [if_neg hp] at h
      simp only [List.head?_cons, Option.some.injEq] at h
      subst h
      simpa using hp

/-- The last element left by `dropTrailingDots` is not a dot. -/
theorem dropTrailingDots_getLast {y : List Char} {c : Char}
    (h : (dropTrailingDots y).getLast? = some c) : (c == '.') = false := by
  unfold dropTrailingDots at h
  rw [List.getLast?_reverse] at h
  exact dropWhile_head?_false (fun c => c == '.') h

/-- `dropTrailingDots` is the identity when the list does not end in a dot. -/
theorem dropTrailingDots_eq_self {l : List Char}
    (h : ∀ c, l.getLast? = some c → (c == '.') = false) :
    dropTrailingDots l = l := by
  unfold dropTrailingDots
  cases hl : l.reverse with
  | nil =>
    simp only [List.dropWhile_nil, List.reverse_nil]
    exact (List.reverse_eq_nil_iff.mp hl).symm
  | cons a t =>
    have ha : l.getLast? = some a := by
      rw [← List.head?_reverse, hl]; rfl
    rw [List.dropWhile_cons, if_neg (by simp [h a ha]), ← hl,
      List.reverse_reverse]

/-- Protocol stripping is the identity on colon-free input. -/
theorem stripProto_eq_self {l : List Char} (h : ∀ c ∈ l, c ≠ ':') :
    stripProto l = l := by
  unfold stripProto
  rw [if_neg]
  rintro ⟨-, htake⟩
  cases hr : l.drop (l.takeWhile isSchemeChar).length with
  | nil => rw [hr] at htake; simp at htake
  | cons a t =>
    rw [hr] at htake
    have ha : a = ':' := by
      have := congrArg List.head? htake
      simpa using this
    have hmem : a ∈ l := List.drop_subset _ l (hr ▸ List.mem_cons_self a t)
    exact h a hmem ha

/-- The non-dot-terminal fact transported through `extractHost`. -/
theorem extractHost_getLast {t : List Char} {c : Char}
    (h : (extractHost t).getLast? = some c) : (c == '.') = false := by
  unfold extractHost at h
  exact dropTrailingDots_getLast h

/-- Host extraction is the identity on a valid hostname. -/
theorem extractHost_eq_self {l : List Char}
    (hhost : ∀ c ∈ l, isHostChar c = true)
    (hlast : ∀ c, l.getLast? = some c → (c == '.') = false) :
    extractHost l = l := by
  unfold extractHost
  rw [stripProto_eq_self (fun c hc => hostChar_ne_colon (hhost c hc)),
    takeWhile_eq_self_of_all (fun c hc => hostChar_bne_slash (hhost c hc)),
    takeWhile_eq_self_of_all (fun c hc => hostChar_bne_colon (hhost c hc))]
  exact dropTrailingDots_eq_self hlast

/-- A successful `checkHost` returns its input, which passes `hostOk`. -/
theorem checkHost_eq_some {l m : List Char} (h : checkHost l = some m) :
    m = l ∧ hostOk l = true := by
  unfold checkHost at h
  by_cases hb : hostOk l
  · rw [if_pos hb] at h
    exact ⟨((Option.some.injEq _ _).mp h).symm, hb⟩
  · rw [if_neg hb] at h; cases h

/-- A list passing `hostOk` is non-empty and made of hostname characters. -/
theorem hostOk_facts {l : List Char} (h : hostOk l = true) :
    l ≠ [] ∧ ∀ c ∈ l, isHostChar c = true := by
  unfold hostOk at h
  simp only [Bool.and_eq_true, Bool.not_eq_true'] at h
  obtain ⟨⟨⟨⟨⟨⟨h1, -⟩, h3⟩, -⟩, -⟩, -⟩, -⟩ := h
  refine ⟨?_, ?_⟩
  · intro hl; rw [hl] at h1; simp at h1
  · intro c hc
    have := List.any_eq_false.mp h3 c hc
    simpa using this

/-- Core idempotence of the hostname normalizer on character lists. -/
theorem normList_idem {raw cleaned : List Char} (h : normList raw = some cleaned) :
    normList cleaned = some cleaned := by
  unfold normList at h
  by_cases h0 : raw = []
  · rw [if_pos h0] at h; cases h
  rw [if_neg h0] at h
  by_cases h1 : (trimList raw).map toLowerCh = []
  · rw [if_pos h1] at h; cases h
  rw [if_neg h1] at h
  obtain ⟨hm, hOk⟩ := checkHost_eq_some h
  subst hm
  obtain ⟨hne, hhost⟩ := hostOk_facts hOk
  have htrim := trimList_eq_self (fun c hc => hostChar_not_ws (hhost c hc))
  have hmap := map_eq_self_of_fixed (fun c hc => hostChar_toLower (hhost c hc))
  unfold normList
  rw [if_neg hne, htrim, hmap, if_neg hne,
    extractHost_eq_self hhost (fun c hc => extractHost_getLast hc)]
  unfold checkHost
  rw [if_pos hOk]

/-- A prefix of a list is a prefix of any right-extension. -/
theorem isPrefixOf_append_right {p l r : List Char} (h : p.isPrefixOf l = true) :
    p.isPrefixOf (l ++ r) = true := by
  induction p generalizing l with
  | nil => simp [List.isPrefixOf]
  | cons a as ih =>
    cases l with
    | nil => simp [List.isPrefixOf] at h
    | cons b bs =>
      simp only [List.isPrefixOf, List.cons_append, Bool.and_eq_true] at h ⊢
      exact ⟨h.1, ih h.2⟩

/-- The thrown message of a non-2xx provider-create failure carries the tag the
verify route's catch block tests for. -/
theorem cfCreateMessage_tagged (status : Nat) (body : String) :
    startsWithStr (cfErrorMessage (.httpCreate status body))
      "Failed to create Cloudflare" = true := by
  unfold cfErrorMessage startsWithStr
  rw [String.data_append]
  exact isPrefixOf_append_right (by decide)

/-- The thrown message of a non-2xx provider-read failure carries the tag the
refresh route's catch block tests for. -/
theorem cfReadMessage_tagged (status : Nat) (body : String) :
    startsWithStr (cfErrorMessage (.httpRead status body))
      "Failed to read Cloudflare" = true := by
  unfold cfErrorMessage startsWithStr
  rw [String.data_append]
  exact isPrefixOf_append_right (by decide)

/-! ### Sample data shared by concrete instances -/

/-- A sample create input without a distribution. -/
def sampleInputNoDist : CreateCustomDomainInput :=
  { ownerId := "alice"
    distributionId := none
    hostname := "shop.example.com"
    dnsTarget := "edge.dataruapp.com"
    verificationMethod := "txt"
    verificationToken := "tok123"
    txtName := "_cf-custom-hostname.shop.example.com"
    txtValue := "tok123" }

/-- A sample create input associated with distribution `L1`. -/
def sampleInput : CreateCustomDomainInput :=
  { sampleInputNoDist with distributionId := some "L1" }

/-- The record produced by creating `shop.example.com` for `alice`. -/
def sampleDomain : CustomDomainRecord :=
  createRecord "dom1" sampleInput 0

/-- A DNS answer carrying the expected CNAME target with a trailing dot. -/
def cnameAnsOk : DnsAnswer :=
  { name := some "shop.example.com", type := some 5, data := some "edge.dataruapp.com." }

/-- A DNS answer carrying the expected TXT token in DoH quoting. -/
def txtAnsOk : DnsAnswer :=
  { name := some "_cf-custom-hostname.shop.example.com", type := some 16
    data := some "\"tok123\"" }

/-- A provider resource as returned by a successful create. -/
def cfCreated : CloudflareHostname :=
  { id := "cf1", hostname := "shop.example.com", status := "pending"
    verification_errors := none
    ssl := some { status := some "pending_validation", verification_errors := none } }

/-- A provider resource that reports `active` while still carrying
verification errors. -/
def cfActiveWithErrors : CloudflareHostname :=
  { id := "cf1", hostname := "shop.example.com", status := "active"
    verification_errors := some ["txt token mismatch"]
    ssl := some { status := some "active", verification_errors := some ["cert pending"] } }

/-- The sample record after a completed verify (provider hostname created). -/
def sampleVerifying : CustomDomainRecord :=
  { sampleDomain with cfHostnameId := some "cf1", status := .verifying }

/-! ### Claim theorems -/

/-- C8: the hostname normalizer is idempotent — whenever
`normalizeHostname h = some out`, also `normalizeHostname out = some out`. -/
theorem normalizeHostname_idem (h out : String)
    (hn : normalizeHostname h = some out) :
    normalizeHostname out = some out := by
  unfold normalizeHostname at hn ⊢
  cases hl : normList h.data with
  | none => rw [hl] at hn; cases hn
  | some l =>
    rw [hl] at hn
    have hout : out = String.mk l := by simpa using hn.symm
    subst hout
    show (normList l).map String.mk = some (String.mk l)
    rw [normList_idem hl]
    rfl

/-- Witness for C8 at a concrete input: normalizing the output of
`normalizeHostname "Shop.Example.com."` is a fixed point. -/
theorem normalizeHostname_idem_witness :
    normalizeHostname "shop.example.com" = some "shop.example.com" :=
  normalizeHostname_idem "Shop.Example.com." "shop.example.com" (by decide)

/-- C1: on a refresh whose provider read succeeded, a non-empty combined
verification-error list forces `status = pending_dns` with `lastError` the
`'; '`-join of the errors, regardless of the provider's `status`/`ssl.status`;
and the persisted status is `active` exactly when the combined error list is
empty and the provider hostname status or TLS status is `active`. -/
theorem refresh_errors_precedence (d : CustomDomainRecord) (cfid : String)
    (cf : CloudflareHostname) (now : Nat) (hid : d.cfHostnameId = some cfid) :
    (combinedVerificationErrors cf ≠ [] →
      (refreshStep d (.ok cf) now).2.status = .pending_dns ∧
      (refreshStep d (.ok cf) now).2.lastError =
        some (String.intercalate "; " (combinedVerificationErrors cf))) ∧
    ((refreshStep d (.ok cf) now).2.status = .active ↔
      combinedVerificationErrors cf = [] ∧
        (cf.status = "active" ∨ sslStatusActive cf = true)) := by
  have h2status : (refreshStep d (.ok cf) now).2.status = (refreshDecision cf).1 := by
    simp [refreshStep, hid, updateCustomDomainRecord]
  have h2err : (refreshStep d (.ok cf) now).2.lastError = (refreshDecision cf).2 := by
    simp [refreshStep, hid, updateCustomDomainRecord]
  constructor
  · intro herr
    rw [h2status, h2err]
    unfold refreshDecision
    rw [if_pos herr]
    exact ⟨rfl, rfl⟩
  · rw [h2status]
    unfold refreshDecision
    by_cases herr : combinedVerificationErrors cf = []
    · rw [if_neg (by simp [herr])]
      by_cases hact : cf.status = "active" ∨ sslStatusActive cf = true
      · rw [if_pos hact]
        simp [herr, hact]
      · rw [if_neg hact]
        by_cases hdel : cf.status = "pending_deletion"
        · rw [if_pos hdel]
          simp [hact]
        · rw [if_neg hdel]
          simp [hact]
    · rw [if_pos herr]
      constructor
      · intro hx; cases hx
      · rintro ⟨hx, -⟩; exact absurd hx herr

/-- Witness for C1: a provider record with `status = active`, `ssl.status =
active` and two verification errors still refreshes to `pending_dns` with the
joined error string. -/
theorem refresh_errors_precedence_witness :
    (refreshStep sampleVerifying (.ok cfActiveWithErrors) 9).2.status = .pending_dns ∧
    (refreshStep sampleVerifying (.ok cfActiveWithErrors) 9).2.lastError =
      some "txt token mismatch; cert pending" := by
  have h := (refresh_errors_precedence sampleVerifying "cf1" cfActiveWithErrors 9
    (by decide)).1 (by decide)
  exact ⟨h.1, by rw [h.2]; decide⟩

/-- C4: when the DNS checks both passed and the provider create fails with a
non-2xx HTTP response, the verify handler surfaces `CLOUDFLARE_ERROR` (502)
and returns the record exactly as it was — status, `cfHostnameId`,
`lastError` and `lastCheckedAt` untouched. -/
theorem verify_provider_failure_no_mutation (d : CustomDomainRecord)
    (ansC ansT : List DnsAnswer) (httpStatus : Nat) (body : String) (now : Nat)
    (hdns : dnsOkFor d ansC ansT = true) :
    verifyStep d ansC ansT (.error (.httpCreate httpStatus body)) now =
      (.cloudflareError (cfErrorMessage (.httpCreate httpStatus body)), d) ∧
    verifyHttpStatus (verifyStep d ansC ansT (.error (.httpCreate httpStatus body)) now).1
      = 502 := by
  simp only [dnsOkFor, Bool.and_eq_true] at hdns
  have hmain : verifyStep d ansC ansT (.error (.httpCreate httpStatus body)) now =
      (.cloudflareError (cfErrorMessage (.httpCreate httpStatus body)), d) := by
    simp [verifyStep, hdns.1, hdns.2, cfCreateMessage_tagged httpStatus body]
  exact ⟨hmain, by rw [hmain]; rfl⟩


/-- Witness for C4: a concrete DNS-passing verify whose provider create comes
back 500 leaves the sample record unchanged and yields a 502 outcome. -/
theorem verify_provider_failure_no_mutation_witness :
    verifyStep sampleDomain [cnameAnsOk] [txtAnsOk] (.error (.httpCreate 500 "boom")) 5 =
      (.cloudflareError (cfErrorMessage (.httpCreate 500 "boom")), sampleDomain) ∧
    verifyHttpStatus
      (verifyStep sampleDomain [cnameAnsOk] [txtAnsOk]
        (.error (.httpCreate 500 "boom")) 5).1 = 502 :=
  verify_provider_failure_no_mutation sampleDomain [cnameAnsOk] [txtAnsOk] 500 "boom" 5
    (by decide)

/-- The sample record marked `active` (as after a successful activation). -/
def sampleActive : CustomDomainRecord :=
  { sampleDomain with status := .active }

/-- C2 counterexample: a domain whose status is `active` is not rejected by
verify — with passing DNS answers and a successful provider create, the
handler proceeds and persists a mutation (status back to `verifying`,
`cfHostnameId` set). -/
theorem verify_active_not_rejected_cex :
    (verifyStep sampleActive [cnameAnsOk] [txtAnsOk] (.ok cfCreated) 7).2.status
      = .verifying ∧
    (verifyStep sampleActive [cnameAnsOk] [txtAnsOk] (.ok cfCreated) 7).2.cfHostnameId
      = some "cf1" ∧
    (verifyStep sampleActive [cnameAnsOk] [txtAnsOk] (.ok cfCreated) 7).2 ≠ sampleActive :=
  ⟨by decide, by decide, by decide⟩

/-- C2 (amended): verify has no status guard at all — even on a domain whose
status is `active` the DNS check runs and, when it passes and the provider
create succeeds, the full transition is performed: success outcome, status
moved to `verifying`, `cfHostnameId` set to the provider id. -/
theorem verify_no_status_guard (d : CustomDomainRecord) (ansC ansT : List DnsAnswer)
    (cf : CloudflareHostname) (now : Nat)
    (hactive : d.status = .active) (hdns : dnsOkFor d ansC ansT = true) :
    (verifyStep d ansC ansT (.ok cf) now).1 =
      .okVerified (verifyStep d ansC ansT (.ok cf) now).2
        (checkDnsRecords ansC ansT d.dnsTarget (d.txtValue.getD d.verificationToken)) cf ∧
    (verifyStep d ansC ansT (.ok cf) now).2.status = .verifying ∧
    (verifyStep d ansC ansT (.ok cf) now).2.cfHostnameId = some cf.id := by
  simp only [dnsOkFor, Bool.and_eq_true] at hdns
  have hstep : verifyStep d ansC ansT (.ok cf) now =
      (.okVerified
        (updateCustomDomainRecord d (some .verifying) (some none) (some now)
          (some cf.id) now)
        (checkDnsRecords ansC ansT d.dnsTarget (d.txtValue.getD d.verificationToken)) cf,
       updateCustomDomainRecord d (some .verifying) (some none) (some now)
        (some cf.id) now) := by
    simp [verifyStep, hdns.1, hdns.2]
  rw [hstep]
  exact ⟨rfl, by simp [updateCustomDomainRecord], by simp [updateCustomDomainRecord]⟩

/-- Witness for C2's amended claim at the concrete active sample domain. -/
theorem verify_no_status_guard_witness :
    (verifyStep sampleActive [cnameAnsOk] [txtAnsOk] (.ok cfCreated) 7).2.status
        = .verifying ∧
    (verifyStep sampleActive [cnameAnsOk] [txtAnsOk] (.ok cfCreated) 7).2.cfHostnameId
        = some cfCreated.id := by
  have h := verify_no_status_guard sampleActive [cnameAnsOk] [txtAnsOk] cfCreated 7
    (by decide) (by decide)
  exact ⟨h.2.1, h.2.2⟩

/-- The verify route's DNS branch condition is the negation of `dnsOkFor`. -/
theorem verify_cond_eq_not_dnsOk (d : CustomDomainRecord)
    (ansC ansT : List DnsAnswer) :
    (!(checkDnsRecords ansC ansT d.dnsTarget (d.txtValue.getD d.verificationToken)).cname.ok
      || !(checkDnsRecords ansC ansT d.dnsTarget (d.txtValue.getD d.verificationToken)).txt.ok)
    = !(dnsOkFor d ansC ansT) := by
  simp [dnsOkFor]

/-- How one operation changes `cfHostnameId`: only a verify that validated DNS
and completed the provider create sets it; nothing ever clears it. -/
theorem applyOp_cfHostnameId (d : CustomDomainRecord) (op : DomainOp) :
    (applyOp d op).cfHostnameId.isSome
      = (d.cfHostnameId.isSome || isCompletedVerify d op) := by
  cases op with
  | verify ansC ansT cfRes now =>
    simp only [applyOp, isCompletedVerify, verifyStep]
    rw [verify_cond_eq_not_dnsOk]
    cases hdns : dnsOkFor d ansC ansT with
    | false =>
      simp [updateCustomDomainRecord]
    | true =>
      cases cfRes with
      | ok cf => simp [updateCustomDomainRecord, cfResOk]
      | error e =>
        by_cases hsw : startsWithStr (cfErrorMessage e) "Failed to create Cloudflare" = true
        · simp [hsw, cfResOk]
        · simp [hsw, cfResOk]
  | refresh cfRes now =>
    simp only [applyOp, isCompletedVerify, refreshStep]
    cases hc : d.cfHostnameId with
    | none => simp [hc]
    | some cfid =>
      cases cfRes with
      | ok cf => simp [updateCustomDomainRecord, hc]
      | error e =>
        by_cases hsw : startsWithStr (cfErrorMessage e) "Failed to read Cloudflare" = true
        · simp [hsw, hc]
        · simp [hsw, hc]

/-- Over a whole trace, `cfHostnameId` is set exactly when it was set at the
start or some verify validated DNS and completed the provider create. -/
theorem runOps_cfHostnameId (ops : List DomainOp) :
    ∀ d : CustomDomainRecord,
      (runOps d ops).cfHostnameId.isSome
        = (d.cfHostnameId.isSome || anyCompletedVerify d ops) := by
  induction ops with
  | nil => intro d; simp [runOps, anyCompletedVerify]
  | cons op rest ih =>
    intro d
    show (runOps (applyOp d op) rest).cfHostnameId.isSome = _
    rw [ih (applyOp d op), applyOp_cfHostnameId]
    simp [anyCompletedVerify, Bool.or_assoc]

/-- C3 counterexample: starting from a freshly created record, a verify whose
DNS checks both passed but whose provider create failed leaves `cfHostnameId`
null although a verify step has successfully validated DNS — the claimed
"if and only if" fails in the if direction. -/
theorem cfHostnameId_iff_dns_cex :
    anyValidatedVerify sampleDomain
      [.verify [cnameAnsOk] [txtAnsOk] (.error (.httpCreate 500 "boom")) 5] = true ∧
    (runOps sampleDomain
      [.verify [cnameAnsOk] [txtAnsOk] (.error (.httpCreate 500 "boom")) 5]).cfHostnameId
      = none :=
  ⟨by decide, by decide⟩

/-- C3 (amended): in every state reachable from a create by verify/refresh
operations, `cfHostnameId` is non-null if and only if at least one verify step
both validated DNS (CNAME and TXT) and completed the provider
create-hostname call. -/
theorem cfHostnameId_iff_completed_verify (genId : String)
    (input : CreateCustomDomainInput) (now : Nat) (ops : List DomainOp) :
    (runOps (createRecord genId input now) ops).cfHostnameId.isSome
      = anyCompletedVerify (createRecord genId input now) ops := by
  rw [runOps_cfHostnameId ops (createRecord genId input now)]
  have hc : (createRecord genId input now).cfHostnameId = none := rfl
  rw [hc]
  simp

/-- Appending a dot on the right commutes with trailing-dot stripping. -/
theorem dropTrailingDots_append_dot (m : List Char) :
    dropTrailingDots (m ++ ['.']) = dropTrailingDots m := by
  unfold dropTrailingDots
  rw [List.reverse_append]
  simp only [List.reverse_cons, List.reverse_nil, List.nil_append, List.singleton_append]
  rw [List.dropWhile_cons, if_pos (by decide)]

/-- The CNAME-side normalizer is insensitive to one trailing dot (for
whitespace-free input, where JS `trim` is inert). -/
theorem normalizeFqdnStr_append_dot (s : String)
    (h : s.data.all (fun c => !(isWsCh c)) = true) :
    normalizeFqdnStr (s ++ ".") = normalizeFqdnStr s := by
  by_cases hs : s = ""
  · subst hs; decide
  · have hdata : (s ++ ".").data = s.data ++ ['.'] := by
      rw [String.data_append]
    have hne : s ++ "." ≠ "" := by
      intro heq
      have := congrArg String.data heq
      rw [hdata] at this
      simp at this
    have hallS : ∀ c ∈ s.data, isWsCh c = false := by
      intro c hc
      have := List.all_eq_true.mp h c hc
      simpa using this
    have hall : ∀ c ∈ s.data ++ ['.'], isWsCh c = false := by
      intro c hc
      rcases List.mem_append.mp hc with h1 | h1
      · exact hallS c h1
      · simp only [List.mem_singleton] at h1; subst h1; decide
    unfold normalizeFqdnStr
    rw [if_neg hne, if_neg hs, hdata, trimList_eq_self hall, trimList_eq_self hallS,
      List.map_append]
    have hmap : ['.'].map toLowerCh = ['.'] := by decide
    rw [hmap, dropTrailingDots_append_dot]

/-- The TXT comparison exactly as the C5 claim words it: strip the surrounding
quote pair (and doubled quotes), then normalize both sides by trimming,
lower-casing and stripping a trailing dot before comparing. -/
def specTxtMatches (data expected : String) : Bool :=
  normalizeFqdnStr (String.mk (collapseDQ (stripOuterQuotes data.data)))
    == normalizeFqdnStr expected

/-- C5 counterexample: the claim's normalization would make the TXT answer
`"ABC123"` match expected value `abc123` (both lower-case to `abc123`), but
the code's TXT comparison is case-sensitive and reports no match. -/
theorem txt_compare_not_normalized_cex :
    specTxtMatches "\"ABC123\"" "abc123" = true ∧
    txtAnswerMatches "\"ABC123\"" "abc123" = false ∧
    (checkDnsRecords [] [{ name := none, type := some 16, data := some "\"ABC123\"" }]
      "edge.dataruapp.com" "abc123").txt.ok = false :=
  ⟨by decide, by decide, by decide⟩

/-- A CNAME answer for the C5 example, with a trailing dot. -/
def cnameDotAns : DnsAnswer :=
  { name := none, type := some 5, data := some "app.edge.example.net." }

/-- A TXT answer for the C5 example, with DoH-style surrounding quotes. -/
def txtQuotedAns : DnsAnswer :=
  { name := none, type := some 16, data := some "\"abc123\"" }

/-- C5 (amended): the CNAME comparison normalizes each side by trimming,
lower-casing and stripping trailing dots (so `app.edge.example.net.` matches
`app.edge.example.net`), while the TXT comparison strips the surrounding
quote pair and doubled quotes from the answer and compares it exactly —
case-sensitively, without dot-stripping — against the trimmed expected value
(so `"abc123"` matches `abc123` but `"aBc123"` does not). -/
theorem dns_match_semantics :
    (∀ s : String, s.data.all (fun c => !(isWsCh c)) = true →
        normalizeFqdnStr (s ++ ".") = normalizeFqdnStr s) ∧
    checkDnsRecords [cnameDotAns] [txtQuotedAns] "app.edge.example.net" "abc123"
      = { cname := { ok := true, found := some "app.edge.example.net." }
          txt := { ok := true, found := some "\"abc123\"" } } ∧
    txtAnswerMatches "\"abc123\"" "abc123" = true ∧
    txtAnswerMatches "\"aBc123\"" "abc123" = false :=
  ⟨normalizeFqdnStr_append_dot, by decide, by decide, by decide⟩

/-- Witness for C5's amended claim: the trailing-dot insensitivity of the
CNAME normalizer at the example target. -/
theorem dns_match_semantics_witness :
    normalizeFqdnStr ("app.edge.example.net" ++ ".") = normalizeFqdnStr "app.edge.example.net" :=
  dns_match_semantics.1 "app.edge.example.net" (by decide)

/-- A raw hostname whose extracted host part contains `*` fails
`normalizeHostname`: `*` is outside the `[a-z0-9.-]` class, which is checked
before the route-level wildcard test. -/
theorem normalizeHostname_none_of_star (raw : String)
    (h : '*' ∈ extractHost ((trimList raw.data).map toLowerCh)) :
    normalizeHostname raw = none := by
  unfold normalizeHostname normList
  by_cases h0 : raw.data = []
  · exfalso; rw [h0] at h; exact absurd h (by decide)
  rw [if_neg h0]
  by_cases h1 : (trimList raw.data).map toLowerCh = []
  · exfalso; rw [h1] at h; exact absurd h (by decide)
  rw [if_neg h1]
  have hany : (extractHost ((trimList raw.data).map toLowerCh)).any
      (fun c => !(isHostChar c)) = true :=
    List.any_eq_true.mpr ⟨'*', h, by decide⟩
  have hOk : hostOk (extractHost ((trimList raw.data).map toLowerCh)) = false := by
    unfold hostOk
    rw [hany]
    simp
  unfold checkHost
  rw [if_neg (by simp [hOk])]
  rfl

/-- C6 counterexample: submitting the wildcard hostname `*.shop.example.com`
is rejected with `INVALID_HOSTNAME`, not `WILDCARD_NOT_ALLOWED` (normalization
rejects `*` first, so the dedicated wildcard branch never fires). -/
theorem wildcard_rejected_as_invalid_cex :
    createDomainRoute (some "alice") (some "*.shop.example.com") none [] []
      "gid" "gtok" "edge.dataruapp.com" 0 = (.invalidHostname, []) ∧
    CreateOutcome.invalidHostname ≠ CreateOutcome.wildcardNotAllowed ∧
    createHttpStatus .invalidHostname = 400 :=
  ⟨by decide, by decide, by decide⟩

/-- C6 (amended): every create request whose submitted hostname carries `*`
in its extracted host part is rejected 400-class with `INVALID_HOSTNAME`
(the `WILDCARD_NOT_ALLOWED` branch being unreachable), and no record is
persisted — the store is returned unchanged. -/
theorem wildcard_rejected_no_persist (uid raw : String) (payloadDist : Option String)
    (domains : List CustomDomainRecord) (links : List LinkRow)
    (genId genToken dnsTarget : String) (now : Nat)
    (hstar : '*' ∈ extractHost ((trimList raw.data).map toLowerCh)) :
    createDomainRoute (some uid) (some raw) payloadDist domains links
      genId genToken dnsTarget now = (.invalidHostname, domains) := by
  have hn : normalizeHostname ((some raw : Option String).getD "") = none :=
    normalizeHostname_none_of_star raw hstar
  unfold createDomainRoute
  rw [hn]

/-- Witness for C6's amended claim at the concrete wildcard hostname. -/
theorem wildcard_rejected_no_persist_witness :
    createDomainRoute (some "alice") (some "*.api.example.com") none [] []
      "gid" "gtok" "edge.dataruapp.com" 0 = (.invalidHostname, []) :=
  wildcard_rejected_no_persist "alice" "*.api.example.com" none [] []
    "gid" "gtok" "edge.dataruapp.com" 0 (by decide)

/-- C7: for distinct owners A and B, a verify or refresh by A against a domain
owned by B yields exactly the same `DOMAIN_NOT_FOUND` (404) response and
unchanged store as the same request against a wholly nonexistent id. -/
theorem ownership_isolation (st : List CustomDomainRecord) (A B domainId : String)
    (ansC ansT : List DnsAnswer) (cfRes : Except CfError CloudflareHostname) (now : Nat)
    (hAB : A ≠ B) (hid : strTrim domainId ≠ "")
    (hown : ∀ r ∈ st, r.id = strTrim domainId → r.ownerId = B) :
    verifyRoute (some A) st domainId ansC ansT cfRes now = (.domainNotFound, st) ∧
    refreshRoute (some A) st domainId cfRes now = (.domainNotFound, st) ∧
    verifyHttpStatus (verifyRoute (some A) st domainId ansC ansT cfRes now).1 = 404 ∧
    refreshHttpStatus (refreshRoute (some A) st domainId cfRes now).1 = 404 ∧
    ∀ (st₂ : List CustomDomainRecord) (id₂ : String), strTrim id₂ ≠ "" →
      (∀ r ∈ st₂, r.id ≠ strTrim id₂) →
      verifyRoute (some A) st₂ id₂ ansC ansT cfRes now = (.domainNotFound, st₂) ∧
      refreshRoute (some A) st₂ id₂ cfRes now = (.domainNotFound, st₂) := by
  have hfind : getCustomDomainForOwner st (strTrim domainId) A = none := by
    apply List.find?_eq_none.mpr
    intro r hr
    simp only [Bool.and_eq_true, beq_iff_eq, not_and]
    intro hid' hOwner
    exact hAB ((hOwner.symm.trans (hown r hr hid')))
  have hctx : resolveDomainContext (some A) st domainId = .error .domainNotFound := by
    simp [resolveDomainContext, hid, hfind]
  have hv : verifyRoute (some A) st domainId ansC ansT cfRes now = (.domainNotFound, st) := by
    simp [verifyRoute, hctx, ctxToVerifyOutcome]
  have hrf : refreshRoute (some A) st domainId cfRes now = (.domainNotFound, st) := by
    simp [refreshRoute, hctx, ctxToRefreshOutcome]
  refine ⟨hv, hrf, by rw [hv]; rfl, by rw [hrf]; rfl, ?_⟩
  intro st₂ id₂ hid₂ hmiss
  have hfind₂ : getCustomDomainForOwner st₂ (strTrim id₂) A = none := by
    apply List.find?_eq_none.mpr
    intro r hr
    simp only [Bool.and_eq_true, beq_iff_eq, not_and]
    intro hid' _
    exact absurd hid' (hmiss r hr)
  have hctx₂ : resolveDomainContext (some A) st₂ id₂ = .error .domainNotFound := by
    simp [resolveDomainContext, hid₂, hfind₂]
  exact ⟨by simp [verifyRoute, hctx₂, ctxToVerifyOutcome],
    by simp [refreshRoute, hctx₂, ctxToRefreshOutcome]⟩

/-- A domain record owned by `bob`. -/
def bobDomain : CustomDomainRecord :=
  createRecord "domB"
    { sampleInputNoDist with ownerId := "bob", hostname := "bob.example.com" } 0

/-- Witness for C7: caller `alice` against `bob`'s concrete record gets the
`DOMAIN_NOT_FOUND` response with the store untouched. -/
theorem ownership_isolation_witness :
    verifyRoute (some "alice") [bobDomain] "domB" [] [] (.ok cfCreated) 3
      = (.domainNotFound, [bobDomain]) ∧
    refreshRoute (some "alice") [bobDomain] "domB" (.ok cfCreated) 3
      = (.domainNotFound, [bobDomain]) := by
  have h := ownership_isolation [bobDomain] "alice" "bob" "domB" [] []
    (.ok cfCreated) 3 (by decide) (by decide) (by decide)
  exact ⟨h.1, h.2.1⟩

/-- The link row joined by the sample domain. -/
def linkL1 : LinkRow :=
  { id := "L1", owner_id := "alice", code := "code1", title := none }

/-- C9: resolving a stored hostname succeeds with its link code whatever the
record's status is (the lookup has no status filter), and the middleware
rewrites `/` to `/d/<code>` from that link code without consulting the
status. -/
theorem resolve_ignores_status (domains : List CustomDomainRecord) (links : List LinkRow)
    (param host nh : String) (d : CustomDomainRecord) (code : String)
    (defaults : List String)
    (hn : normalizeHostname param = some nh)
    (hfind : lookupByHostname domains nh = some d) :
    resolveGet domains links param
      = .ok d.hostname d.distributionId (joinLink links d).distributionCode d.status ∧
    (normalizeHostname host = some nh →
      ¬(host = "" ∨ defaults.contains host) →
      (joinLink links d).distributionCode = some code → code ≠ "" →
      middlewareRewrite defaults domains links host "/" = some ("/d/" ++ code)) := by
  have hres : resolveGet domains links param
      = .ok d.hostname d.distributionId (joinLink links d).distributionCode d.status := by
    simp [resolveGet, hn, hfind]
  refine ⟨hres, ?_⟩
  intro hhost hdef hcode hcode'
  have hres2 : resolveGet domains links host
      = .ok d.hostname d.distributionId (joinLink links d).distributionCode d.status := by
    simp [resolveGet, hhost, hfind]
  unfold middlewareRewrite
  rw [if_neg hdef, hres2, hcode]
  simp [lookupCode, hcode']

/-- Witness for C9: the sample record is `pending_dns`, yet resolution and the
middleware rewrite work exactly as for an active record. -/
theorem resolve_ignores_status_witness :
    middlewareRewrite ["localhost"] [sampleDomain] [linkL1] "shop.example.com" "/"
      = some ("/d/" ++ "code1") := by
  have h := resolve_ignores_status [sampleDomain] [linkL1] "shop.example.com"
    "shop.example.com" "shop.example.com" sampleDomain "code1" ["localhost"]
    (by decide) (by decide)
  exact h.2 (by decide) (by decide) (by decide) (by decide)

/-- C10: creating with `distributionId = null` stores the empty string in the
NOT NULL `distribution_id` column, and the row mapper sends every stored value
with empty trim (empty or whitespace-only) back to `null`, so such a record
always reads back with `distributionId = null`. -/
theorem distributionId_sentinel_roundtrip (genId : String)
    (input : CreateCustomDomainInput) (now : Nat)
    (hnone : input.distributionId = none) :
    (insertRow genId input now).distribution_id = "" ∧
    (∀ row : DomainRow, strTrim row.distribution_id = ""
      → (mapRow row).distributionId = none) ∧
    (createRecord genId input now).distributionId = none := by
  have hcol : (insertRow genId input now).distribution_id = "" := by
    simp [insertRow, hnone]
  have hread : ∀ row : DomainRow, strTrim row.distribution_id = ""
      → (mapRow row).distributionId = none := by
    intro row hrow
    simp only [mapRow]
    rw [if_neg]
    rintro ⟨-, h2⟩
    exact h2 hrow
  refine ⟨hcol, hread, ?_⟩
  unfold createRecord
  apply hread
  rw [hcol]
  rfl

/-- Witness for C10 at the concrete distribution-free create input. -/
theorem distributionId_sentinel_roundtrip_witness :
    (createRecord "dom0" sampleInputNoDist 0).distributionId = none :=
  (distributionId_sentinel_roundtrip "dom0" sampleInputNoDist 0 (by decide)).2.2

end Lunacirca
